import Mathlib

/-!
Verification of the Conclave Room Protocol serialization layer
(`conclave-room-serialize-rs`, file `src/lib.rs`).

Shallow embedding conventions:

* A byte buffer is a `List Nat` whose elements are intended to lie below 256;
  theorems that need the bound take it as a hypothesis (the Rust types `u8`,
  `u16 = Term`, `u64 = Knowledge` guarantee the corresponding bounds at every
  call site).
* The `byteorder` read primitives `read_u8 / read_u16 / read_u64` over a
  `Cursor<&[u8]>` return `Err` when fewer bytes remain than the field width;
  every call site in `src/lib.rs` immediately calls `.unwrap()`, which panics
  on `Err`.  A payload decoder (`PingCommand::from_cursor`,
  `RoomInfoCommand::from_cursor`) therefore either produces a value or panics:
  it is embedded as an `Option`-valued function where `none` models the panic.
  The dispatch entry points additionally return `Err(String)` for an unknown
  type id, so they land in `DecodeOutcome`, which distinguishes a returned
  error from a panic.
* The write primitives over a `Vec<u8>` cannot fail, so the encoders are pure
  functions into `List Nat`.
-/

namespace ConclaveRoomSerialize

/-- Big-endian write of the `w` low bytes of `v`, most significant byte first
(the `%' 256` on each byte is the `u8` truncation; for `v < 256 ^ w` it is the
identity on every byte).  `writeBE 2` embeds `write_u16::<BigEndian>` and
`writeBE 8` embeds `write_u64::<BigEndian>` from the `byteorder` crate. -/
def writeBE : Nat → Nat → List Nat
  | 0, _ => []
  | w + 1, v => v / 256 ^ w % 256 :: writeBE w v

/-- Big-endian read of `w` bytes into the accumulator `acc`, returning the
value and the remaining bytes, or `none` when fewer than `w` bytes remain
(the `byteorder` `UnexpectedEof` condition).  `readBE 2 0` embeds
`read_u16::<BigEndian>` and `readBE 8 0` embeds `read_u64::<BigEndian>`. -/
def readBE : Nat → Nat → List Nat → Option (Nat × List Nat)
  | 0, acc, l => some (acc, l)
  | w + 1, acc, l =>
    match l with
    | [] => none
    | b :: rest => readBE w (acc * 256 + b) rest

/-- Embeds `Cursor::read_u8`: take one byte, or fail at end of input. -/
def readU8 : List Nat → Option (Nat × List Nat)
  | [] => none
  | b :: rest => some (b, rest)

/-- Embeds `write_u16::<BigEndian>`. -/
def writeU16 (v : Nat) : List Nat := writeBE 2 v

/-- Embeds `write_u64::<BigEndian>`. -/
def writeU64 (v : Nat) : List Nat := writeBE 8 v

/-- Embeds `read_u16::<BigEndian>`. -/
def readU16 (l : List Nat) : Option (Nat × List Nat) := readBE 2 0 l

/-- Embeds `read_u64::<BigEndian>`. -/
def readU64 (l : List Nat) : Option (Nat × List Nat) := readBE 8 0 l

theorem writeBE_length (w v : Nat) : (writeBE w v).length = w := by
  induction w generalizing v with
  | zero => rfl
  | succ w ih => simp [writeBE, ih]

theorem readBE_writeBE (w : Nat) (acc v : Nat) (r : List Nat) :
    readBE w acc (writeBE w v ++ r) = some (acc * 256 ^ w + v % 256 ^ w, r) := by
  induction w generalizing acc v with
  | zero => simp [writeBE, readBE, Nat.mod_one]
  | succ w ih =>
    have hmul : v % 256 ^ (w + 1) = v % 256 ^ w + 256 ^ w * (v / 256 ^ w % 256) := by
      rw [pow_succ]
      exact Nat.mod_mul
    simp only [writeBE, readBE, List.cons_append, ih]
    rw [hmul, pow_succ]
    ring_nf

theorem readU16_writeU16 (v : Nat) (r : List Nat) (h : v < 256 ^ 2) :
    readU16 (writeU16 v ++ r) = some (v, r) := by
  norm_num at h
  simp [readU16, writeU16, readBE_writeBE, Nat.mod_eq_of_lt, h]

theorem readU64_writeU64 (v : Nat) (r : List Nat) (h : v < 256 ^ 8) :
    readU64 (writeU64 v ++ r) = some (v, r) := by
  norm_num at h
  simp [readU64, writeU64, readBE_writeBE, Nat.mod_eq_of_lt, h]

/-- Embeds `struct PingCommand` (`term : Term = u16`, `knowledge : Knowledge
= u64`, `has_connection_to_leader : bool`).  Integer fields are `Nat`; the
`u16` / `u64` bounds appear as hypotheses where needed. -/
structure PingCommand where
  term : Nat
  knowledge : Nat
  has_connection_to_leader : Bool
deriving DecidableEq

/-- Embeds `PingCommand::to_octets`: `term` (u16 BE), `knowledge` (u64 BE),
then one flag octet, `0x01` for `true` and `0x00` for `false`. -/
def PingCommand.to_octets (p : PingCommand) : List Nat :=
  writeU16 p.term ++ writeU64 p.knowledge ++
    [if p.has_connection_to_leader then 1 else 0]

/-- Embeds `PingCommand::from_cursor`: read `term`, `knowledge`, flag octet in
order; a flag octet is decoded as `true` iff it is nonzero.  Each Rust read is
followed by `.unwrap()`, so a short buffer panics: `none` here. -/
def PingCommand.from_cursor (l : List Nat) : Option (PingCommand × List Nat) :=
  match readU16 l with
  | none => none
  | some (t, l1) =>
    match readU64 l1 with
    | none => none
    | some (k, l2) =>
      match readU8 l2 with
      | none => none
      | some (b, l3) => some (PingCommand.mk t k (b != 0), l3)

theorem PingCommand.from_cursor_append (t k oct : Nat) (rest : List Nat)
    (ht : t < 256 ^ 2) (hk : k < 256 ^ 8) :
    PingCommand.from_cursor (writeU16 t ++ (writeU64 k ++ oct :: rest)) =
      some (PingCommand.mk t k (oct != 0), rest) := by
  simp only [PingCommand.from_cursor, readU16_writeU16 t _ ht,
    readU64_writeU64 k _ hk, readU8]

/-- Embeds `struct ClientInfo` (`custom_user_id : u64`,
`connection_index : u8`). -/
structure ClientInfo where
  custom_user_id : Nat
  connection_index : Nat
deriving DecidableEq

/-- Embeds `struct RoomInfoCommand` (`term : Term = u16`,
`leader_index : u8`, `client_infos : Vec<ClientInfo>`). -/
structure RoomInfoCommand where
  term : Nat
  leader_index : Nat
  client_infos : List ClientInfo
deriving DecidableEq

/-- Embeds the `for client_info in self.client_infos.iter()` loop of
`RoomInfoCommand::to_octets`: per entry, `connection_index` (u8) then
`custom_user_id` (u64 BE). -/
def encodeClientInfos : List ClientInfo → List Nat
  | [] => []
  | c :: rest => c.connection_index :: (writeU64 c.custom_user_id ++ encodeClientInfos rest)

/-- Embeds `RoomInfoCommand::to_octets`: `term` (u16 BE), then
`self.client_infos.len() as u8` (the `as u8` cast is the `%' 256`), then the
client-info records in order, then `leader_index` (u8). -/
def RoomInfoCommand.to_octets (r : RoomInfoCommand) : List Nat :=
  writeU16 r.term ++ [r.client_infos.length % 256] ++
    encodeClientInfos r.client_infos ++ [r.leader_index]

/-- Embeds the `for client_info in slice.iter_mut().take(length)` loop of
`RoomInfoCommand::from_cursor`: read `n` records, each `connection_index`
(u8) then `custom_user_id` (u64 BE); `none` models a panicking `.unwrap()`
on a short buffer. -/
def readClientInfos : Nat → List Nat → Option (List ClientInfo × List Nat)
  | 0, l => some ([], l)
  | n + 1, l =>
    match readU8 l with
    | none => none
    | some (ci, l1) =>
      match readU64 l1 with
      | none => none
      | some (id, l2) =>
        match readClientInfos n l2 with
        | none => none
        | some (rest, l3) => some (ClientInfo.mk id ci :: rest, l3)

/-- Embeds `RoomInfoCommand::from_cursor`.  After reading `term` and the count
byte `length`, the source builds `&mut vec![ClientInfo { .. }][..length]`: a
slice of length `length` taken from a ONE-element vector.  That indexing
panics whenever `length > 1` (slice end out of range), before any record is
read; the panic is modelled by `none`.  For `length ≤ 1` the slice holds
`length` placeholder entries, each overwritten by a freshly read record, so
exactly `length` records are read, then `leader_index`. -/
def RoomInfoCommand.from_cursor (l : List Nat) : Option (RoomInfoCommand × List Nat) :=
  match readU16 l with
  | none => none
  | some (t, l1) =>
    match readU8 l1 with
    | none => none
    | some (length, l2) =>
      if length ≤ 1 then
        match readClientInfos length l2 with
        | none => none
        | some (infos, l3) =>
          match readU8 l3 with
          | none => none
          | some (leader, l4) => some (RoomInfoCommand.mk t leader infos, l4)
      else none

/-- Embeds `PING_COMMAND_TYPE_ID: u8 = 0x01`. -/
def PING_COMMAND_TYPE_ID : Nat := 1

/-- Embeds `ROOM_INFO_COMMAND_TYPE_ID: u8 = 0x02`. -/
def ROOM_INFO_COMMAND_TYPE_ID : Nat := 2

/-- Outcome of a dispatch-level decode call in Rust: a returned
`Ok(command)`, a returned `Err(message)`, or a process panic raised by an
`.unwrap()` or a slice indexing inside the call. -/
inductive DecodeOutcome (α : Type) where
  | ok : α → DecodeOutcome α
  | err : String → DecodeOutcome α
  | panicked : DecodeOutcome α
deriving DecidableEq

/-- Hex digit character, matching Rust `{:x}` formatting (lowercase). -/
def hexDigitChar (n : Nat) : Char :=
  if n < 10 then Char.ofNat (48 + n) else Char.ofNat (87 + n)

/-- Rust `format` with `{:x}` applied to a `u8` value: one or two lowercase
hex digits, no leading zero. -/
def u8ToHex (n : Nat) : String :=
  if n < 16 then String.mk [hexDigitChar n]
  else String.mk [hexDigitChar (n / 16), hexDigitChar (n % 16)]

/-- Embeds the message of `Err(format("unknown command 0x\x7b:x\x7d", id))`. -/
def unknownCommandMessage (id : Nat) : String :=
  "unknown command 0x" ++ u8ToHex id

/-- Embeds `enum ServerReceiveCommand`. -/
inductive ServerReceiveCommand where
  | PingCommandType : PingCommand → ServerReceiveCommand
deriving DecidableEq

/-- Embeds `enum ClientReceiveCommand`. -/
inductive ClientReceiveCommand where
  | RoomInfoType : RoomInfoCommand → ClientReceiveCommand
deriving DecidableEq

/-- Embeds `ServerReceiveCommand::to_octets` (`Result<Vec<u8>, String>`):
the type id octet `0x01` followed by the payload encoding; every reachable
path returns `Ok`. -/
def ServerReceiveCommand.to_octets : ServerReceiveCommand → Except String (List Nat)
  | .PingCommandType p => Except.ok (PING_COMMAND_TYPE_ID :: PingCommand.to_octets p)

/-- Embeds `ClientReceiveCommand::to_octets` (`Result<Vec<u8>, String>`):
the type id octet `0x02` followed by the payload encoding; every reachable
path returns `Ok`. -/
def ClientReceiveCommand.to_octets : ClientReceiveCommand → Except String (List Nat)
  | .RoomInfoType r => Except.ok (ROOM_INFO_COMMAND_TYPE_ID :: RoomInfoCommand.to_octets r)

/-- Embeds `Ok(PingCommandType(PingCommand::from_cursor(..)))` together with
the panic propagation of the inner `from_cursor`. -/
def wrapPing : Option (PingCommand × List Nat) → DecodeOutcome ServerReceiveCommand
  | none => .panicked
  | some (p, _) => .ok (.PingCommandType p)

/-- Embeds `Ok(RoomInfoType(RoomInfoCommand::from_cursor(..)))` together with
the panic propagation of the inner `from_cursor`. -/
def wrapRoomInfo : Option (RoomInfoCommand × List Nat) → DecodeOutcome ClientReceiveCommand
  | none => .panicked
  | some (r, _) => .ok (.RoomInfoType r)

/-- Embeds `ServerReceiveCommand::from_cursor`: read the type id octet
(`.unwrap()`: panic on an empty buffer), dispatch on `0x01`, otherwise
return the unknown-command error carrying the offending byte. -/
def ServerReceiveCommand.from_cursor (l : List Nat) : DecodeOutcome ServerReceiveCommand :=
  match readU8 l with
  | none => .panicked
  | some (id, rest) =>
    if id = PING_COMMAND_TYPE_ID then wrapPing (PingCommand.from_cursor rest)
    else .err (unknownCommandMessage id)

/-- Embeds `ServerReceiveCommand::from_octets`: a cursor at the start of the
buffer, handed to `from_cursor`. -/
def ServerReceiveCommand.from_octets (l : List Nat) : DecodeOutcome ServerReceiveCommand :=
  ServerReceiveCommand.from_cursor l

/-- Embeds `ClientReceiveCommand::from_octets`: read the type id octet
(`.unwrap()`: panic on an empty buffer), dispatch on `0x02`, otherwise
return the unknown-command error carrying the offending byte. -/
def ClientReceiveCommand.from_octets (l : List Nat) : DecodeOutcome ClientReceiveCommand :=
  match readU8 l with
  | none => .panicked
  | some (id, rest) =>
    if id = ROOM_INFO_COMMAND_TYPE_ID then wrapRoomInfo (RoomInfoCommand.from_cursor rest)
    else .err (unknownCommandMessage id)

theorem encodeClientInfos_length (cs : List ClientInfo) :
    (encodeClientInfos cs).length = 9 * cs.length := by
  induction cs with
  | nil => rfl
  | cons c rest ih =>
    simp only [encodeClientInfos, List.length_cons, List.length_append,
      writeU64, writeBE_length, ih]
    ring

theorem encodeClientInfos_eq_join (cs : List ClientInfo) :
    encodeClientInfos cs =
      (cs.map (fun c => c.connection_index :: writeBE 8 c.custom_user_id)).flatten := by
  induction cs with
  | nil => rfl
  | cons c rest ih => simp [encodeClientInfos, writeU64, ih]

/-- Claim C5: for every `PingCommand` value (any `u16` term, any `u64`
knowledge, either boolean), decoding the buffer produced by
`PingCommand::to_octets` via `PingCommand::from_cursor` returns a
`PingCommand` equal to the original, with the whole buffer consumed. -/
theorem C5_ping_roundtrip (p : PingCommand)
    (ht : p.term < 2 ^ 16) (hk : p.knowledge < 2 ^ 64) :
    PingCommand.from_cursor (PingCommand.to_octets p) = some (p, []) := by
  obtain ⟨t, k, b⟩ := p
  have ht' : t < 256 ^ 2 := by norm_num at ht ⊢; exact ht
  have hk' : k < 256 ^ 8 := by norm_num at hk ⊢; exact hk
  have hstep := PingCommand.from_cursor_append t k (if b then 1 else 0) [] ht' hk'
  rw [PingCommand.to_octets, List.append_assoc]
  simp only at hstep ⊢
  rw [hstep]
  cases b <;> simp

/-- Witness for C5 at `term = 32`, `knowledge = 444441`, flag `false`. -/
theorem C5_ping_roundtrip_witness :
    ((32 : Nat) < 2 ^ 16 ∧ (444441 : Nat) < 2 ^ 64) ∧
    PingCommand.from_cursor (PingCommand.to_octets (PingCommand.mk 32 444441 false)) =
      some (PingCommand.mk 32 444441 false, []) :=
  ⟨⟨by norm_num, by norm_num⟩,
    C5_ping_roundtrip (PingCommand.mk 32 444441 false) (by norm_num) (by norm_num)⟩

/-- Claim C8: decoding sets `has_connection_to_leader` to `true` exactly when
the flag octet is nonzero (`oct != 0`), lenient over all `u8` values; encoding
writes the flag strictly as `0x01` for `true` and `0x00` for `false` (it is
the last octet of `PingCommand::to_octets`). -/
theorem C8_bool_flag (t k oct : Nat) (flag : Bool) (rest : List Nat)
    (ht : t < 2 ^ 16) (hk : k < 2 ^ 64) :
    PingCommand.from_cursor (writeU16 t ++ (writeU64 k ++ oct :: rest)) =
      some (PingCommand.mk t k (oct != 0), rest) ∧
    (PingCommand.to_octets (PingCommand.mk t k flag)).getLast? =
      some (if flag then 1 else 0) := by
  constructor
  · exact PingCommand.from_cursor_append t k oct rest
      (by norm_num at ht ⊢; exact ht) (by norm_num at hk ⊢; exact hk)
  · rw [PingCommand.to_octets, List.append_assoc,
      List.getLast?_append_of_ne_nil _ (by simp),
      List.getLast?_append_of_ne_nil _ (by simp)]
    rfl

/-- Witness for C8 at `term = 2`, `knowledge = 3`, flag octet `5` (nonzero,
decoded as `true`), encode flag `true`, one trailing byte. -/
theorem C8_bool_flag_witness :
    ((2 : Nat) < 2 ^ 16 ∧ (3 : Nat) < 2 ^ 64) ∧
    PingCommand.from_cursor (writeU16 2 ++ (writeU64 3 ++ 5 :: [9])) =
      some (PingCommand.mk 2 3 true, [9]) ∧
    (PingCommand.to_octets (PingCommand.mk 2 3 true)).getLast? = some 1 :=
  ⟨⟨by norm_num, by norm_num⟩,
    C8_bool_flag 2 3 5 true [9] (by norm_num) (by norm_num)⟩

/-- Claim C9: whatever bytes follow, any buffer whose count byte (the third
octet, after the `u16` term) is `2` or more makes
`RoomInfoCommand::from_cursor` panic — the slice `&mut vec![..][..length]`
indexes a one-element vector out of range — rather than return a value or a
reportable error; in the embedding the panic is `none`. -/
theorem C9_count_panics (b1 b0 count : Nat) (rest : List Nat)
    (h2 : 2 ≤ count) (h256 : count < 256) :
    RoomInfoCommand.from_cursor (b1 :: b0 :: count :: rest) = none := by
  simp only [RoomInfoCommand.from_cursor, readU16, readBE, readU8]
  rw [if_neg (by omega)]

/-- Witness for C9 at count byte `2` followed by 19 zero bytes — enough bytes
for two records and the leader index, yet the decode still panics. -/
theorem C9_count_panics_witness :
    ((2 : Nat) ≤ 2 ∧ (2 : Nat) < 256) ∧
    RoomInfoCommand.from_cursor (0 :: 0 :: 2 :: List.replicate 19 0) = none :=
  ⟨⟨by norm_num, by norm_num⟩,
    C9_count_panics 0 0 2 (List.replicate 19 0) (by norm_num) (by norm_num)⟩

/-- Claim C4: a first byte `0x01` routes `ServerReceiveCommand::from_octets`
to the `PingCommand` decoder on the remainder, wrapped in `PingCommandType`;
a first byte `0x02` routes `ClientReceiveCommand::from_octets` to the
`RoomInfoCommand` decoder on the remainder, wrapped in `RoomInfoType`; any
other first byte makes the respective entry point return the
unknown-command error carrying that byte (in hex, per `format` `\x7b:x\x7d`). -/
theorem C4_dispatch (b : Nat) (rest : List Nat) (hb : b < 256) :
    (ServerReceiveCommand.from_octets (PING_COMMAND_TYPE_ID :: rest) =
      wrapPing (PingCommand.from_cursor rest)) ∧
    (ClientReceiveCommand.from_octets (ROOM_INFO_COMMAND_TYPE_ID :: rest) =
      wrapRoomInfo (RoomInfoCommand.from_cursor rest)) ∧
    (b ≠ PING_COMMAND_TYPE_ID →
      ServerReceiveCommand.from_octets (b :: rest) =
        DecodeOutcome.err (unknownCommandMessage b)) ∧
    (b ≠ ROOM_INFO_COMMAND_TYPE_ID →
      ClientReceiveCommand.from_octets (b :: rest) =
        DecodeOutcome.err (unknownCommandMessage b)) := by
  refine ⟨?_, ?_, fun h => ?_, fun h => ?_⟩
  · simp [ServerReceiveCommand.from_octets, ServerReceiveCommand.from_cursor, readU8]
  · simp [ClientReceiveCommand.from_octets, readU8]
  · simp [ServerReceiveCommand.from_octets, ServerReceiveCommand.from_cursor, readU8, h]
  · simp [ClientReceiveCommand.from_octets, readU8, h]

/-- Witness for C4 at first byte `255` with a one-byte remainder. -/
theorem C4_dispatch_witness :
    (255 : Nat) < 256 ∧
    ((ServerReceiveCommand.from_octets (PING_COMMAND_TYPE_ID :: [0]) =
      wrapPing (PingCommand.from_cursor [0])) ∧
    (ClientReceiveCommand.from_octets (ROOM_INFO_COMMAND_TYPE_ID :: [0]) =
      wrapRoomInfo (RoomInfoCommand.from_cursor [0])) ∧
    ((255 : Nat) ≠ PING_COMMAND_TYPE_ID →
      ServerReceiveCommand.from_octets (255 :: [0]) =
        DecodeOutcome.err (unknownCommandMessage 255)) ∧
    ((255 : Nat) ≠ ROOM_INFO_COMMAND_TYPE_ID →
      ClientReceiveCommand.from_octets (255 :: [0]) =
        DecodeOutcome.err (unknownCommandMessage 255))) :=
  ⟨by norm_num, C4_dispatch 255 [0] (by norm_num)⟩

/-- Claim C10: both enum encoders have `Result` signatures but return `Ok`
on every value of their enum; no input reaches the `Err` case. -/
theorem C10_encode_total :
    (∀ c : ServerReceiveCommand, ∃ bs, ServerReceiveCommand.to_octets c = Except.ok bs) ∧
    (∀ c : ClientReceiveCommand, ∃ bs, ClientReceiveCommand.to_octets c = Except.ok bs) := by
  constructor
  · intro c
    cases c with
    | PingCommandType p => exact ⟨_, rfl⟩
  · intro c
    cases c with
    | RoomInfoType r => exact ⟨_, rfl⟩

/-- Claim C6: `PingCommand::to_octets` is exactly 11 bytes — `term` as two
big-endian bytes, `knowledge` as eight big-endian bytes, then the flag octet
(`0x01` for `true`, `0x00` for `false`) — and the server-inbound buffer of
`ServerReceiveCommand::to_octets` is those 11 bytes behind the type id
`0x01`, 12 bytes in all. -/
theorem C6_ping_layout (p : PingCommand)
    (ht : p.term < 2 ^ 16) (hk : p.knowledge < 2 ^ 64) :
    PingCommand.to_octets p =
      [p.term / 256, p.term % 256,
       p.knowledge / 256 ^ 7, p.knowledge / 256 ^ 6 % 256,
       p.knowledge / 256 ^ 5 % 256, p.knowledge / 256 ^ 4 % 256,
       p.knowledge / 256 ^ 3 % 256, p.knowledge / 256 ^ 2 % 256,
       p.knowledge / 256 % 256, p.knowledge % 256,
       if p.has_connection_to_leader then 1 else 0] ∧
    (PingCommand.to_octets p).length = 11 ∧
    ServerReceiveCommand.to_octets (ServerReceiveCommand.PingCommandType p) =
      Except.ok (PING_COMMAND_TYPE_ID :: PingCommand.to_octets p) ∧
    (PING_COMMAND_TYPE_ID :: PingCommand.to_octets p).length = 12 ∧
    PING_COMMAND_TYPE_ID = 1 := by
  obtain ⟨t, k, b⟩ := p
  norm_num at ht hk
  refine ⟨?_, ?_, rfl, ?_, rfl⟩
  · have h1 : t / 256 < 256 := by omega
    have h2 : k / 72057594037927936 < 256 := by omega
    simp [PingCommand.to_octets, writeU16, writeU64, writeBE,
      Nat.mod_eq_of_lt, h1, h2]
  · simp [PingCommand.to_octets, writeU16, writeU64, writeBE_length]
  · simp [PingCommand.to_octets, writeU16, writeU64, writeBE_length]

/-- Witness for C6 at `term = 32`, `knowledge = 444441`, flag `false`. -/
theorem C6_ping_layout_witness :
    ((32 : Nat) < 2 ^ 16 ∧ (444441 : Nat) < 2 ^ 64) ∧
    (PingCommand.to_octets (PingCommand.mk 32 444441 false) =
      [0, 32, 0, 0, 0, 0, 0, 6, 200, 25, 0] ∧
    (PingCommand.to_octets (PingCommand.mk 32 444441 false)).length = 11 ∧
    ServerReceiveCommand.to_octets
        (ServerReceiveCommand.PingCommandType (PingCommand.mk 32 444441 false)) =
      Except.ok (PING_COMMAND_TYPE_ID ::
        PingCommand.to_octets (PingCommand.mk 32 444441 false)) ∧
    (PING_COMMAND_TYPE_ID ::
        PingCommand.to_octets (PingCommand.mk 32 444441 false)).length = 12 ∧
    PING_COMMAND_TYPE_ID = 1) :=
  ⟨⟨by norm_num, by norm_num⟩,
    C6_ping_layout (PingCommand.mk 32 444441 false) (by norm_num) (by norm_num)⟩

/-- Claim C7: for a client-info list of `count ≤ 255` entries,
`RoomInfoCommand::to_octets` is exactly `4 + 9 * count` bytes — `term` as two
big-endian bytes, the count octet, then per entry `connection_index` (one
byte) followed by `custom_user_id` (eight big-endian bytes), and
`leader_index` as the final byte. -/
theorem C7_roominfo_layout (r : RoomInfoCommand)
    (hc : r.client_infos.length ≤ 255) (ht : r.term < 2 ^ 16) :
    RoomInfoCommand.to_octets r =
      r.term / 256 :: r.term % 256 :: r.client_infos.length ::
        ((r.client_infos.map
            (fun c => c.connection_index :: writeBE 8 c.custom_user_id)).flatten
          ++ [r.leader_index]) ∧
    (RoomInfoCommand.to_octets r).length = 4 + 9 * r.client_infos.length := by
  norm_num at ht
  constructor
  · have h1 : r.term / 256 < 256 := by omega
    have h2 : r.client_infos.length % 256 = r.client_infos.length :=
      Nat.mod_eq_of_lt (by omega)
    simp [RoomInfoCommand.to_octets, writeU16, writeBE,
      encodeClientInfos_eq_join, Nat.mod_eq_of_lt, h1, h2]
  · simp only [RoomInfoCommand.to_octets, List.length_append, writeU16,
      writeBE_length, encodeClientInfos_length, List.length_cons,
      List.length_nil]
    omega

/-- Witness for C7 at `term = 770`, leader index `3`, one client info with
`custom_user_id = 300` and `connection_index = 7`. -/
theorem C7_roominfo_layout_witness :
    ((RoomInfoCommand.mk 770 3 [ClientInfo.mk 300 7]).client_infos.length ≤ 255 ∧
      (770 : Nat) < 2 ^ 16) ∧
    (RoomInfoCommand.to_octets (RoomInfoCommand.mk 770 3 [ClientInfo.mk 300 7]) =
      [3, 2, 1, 7, 0, 0, 0, 0, 0, 0, 1, 44, 3] ∧
    (RoomInfoCommand.to_octets
      (RoomInfoCommand.mk 770 3 [ClientInfo.mk 300 7])).length = 13) :=
  ⟨⟨by norm_num, by norm_num⟩,
    C7_roominfo_layout (RoomInfoCommand.mk 770 3 [ClientInfo.mk 300 7])
      (by norm_num) (by norm_num)⟩

/-- Claim C1, evaluated at the failing input: a `RoomInfoCommand` with two
client infos (count `2 ≤ 255`) encodes fine, but decoding that very buffer
with `RoomInfoCommand::from_cursor` panics (out-of-range slice of the
one-element `vec![..]`), modelled by `none` — the `≤ 255` round-trip law
fails on the code for every count of `2` or more. -/
theorem C1_roominfo_roundtrip_fails :
    RoomInfoCommand.from_cursor
      (RoomInfoCommand.to_octets
        (RoomInfoCommand.mk 1 0 [ClientInfo.mk 7 1, ClientInfo.mk 8 2])) = none := by
  rfl

/-- Claim C2, evaluated at the failing input: the valid 12-byte encoding of
the Ping command `term = 32`, `knowledge = 444441`, flag `false`, truncated
to its 11-byte proper prefix, makes `ServerReceiveCommand::from_octets`
panic (`.unwrap()` on a failed read) instead of returning an
end-of-input error to the caller. -/
theorem C2_truncation_panics :
    ServerReceiveCommand.to_octets
        (ServerReceiveCommand.PingCommandType (PingCommand.mk 32 444441 false)) =
      Except.ok [1, 0, 32, 0, 0, 0, 0, 0, 6, 200, 25, 0] ∧
    ServerReceiveCommand.from_octets
        (List.take 11 [1, 0, 32, 0, 0, 0, 0, 0, 6, 200, 25, 0]) =
      DecodeOutcome.panicked := by
  exact ⟨rfl, rfl⟩

/-- Claim C3 counterexample: the claimed 11-byte sequence
`01 00 20 00 00 00 00 06 C9 D9 00` is NOT what the Ping command `term = 32`,
`knowledge = 444441`, flag `false` encodes to (the `u64` knowledge field
takes eight bytes, and `444441 = 0x6C819`, not `0x6C9D9`). -/
theorem C3_claimed_bytes_counterexample :
    ServerReceiveCommand.to_octets
        (ServerReceiveCommand.PingCommandType (PingCommand.mk 32 444441 false)) ≠
      Except.ok [0x01, 0x00, 0x20, 0x00, 0x00, 0x00, 0x00, 0x06, 0xC9, 0xD9, 0x00] := by
  intro h
  have h2 : (Except.ok [1, 0, 32, 0, 0, 0, 0, 0, 6, 200, 25, 0] :
      Except String (List Nat)) =
      Except.ok [0x01, 0x00, 0x20, 0x00, 0x00, 0x00, 0x00, 0x06, 0xC9, 0xD9, 0x00] := h
  exact absurd (Except.ok.inj h2) (by decide)

/-- Claim C3 as amended: the Ping command `term = 32`, `knowledge = 444441`,
flag `false` encodes via `ServerReceiveCommand::to_octets` to exactly the
12 bytes `01 00 20 00 00 00 00 00 06 C8 19 00`, and decoding that byte
sequence yields back the same struct. -/
theorem C3_ping_concrete_roundtrip :
    ServerReceiveCommand.to_octets
        (ServerReceiveCommand.PingCommandType (PingCommand.mk 32 444441 false)) =
      Except.ok [0x01, 0x00, 0x20, 0x00, 0x00, 0x00, 0x00, 0x00, 0x06, 0xC8, 0x19, 0x00] ∧
    ServerReceiveCommand.from_octets
        [0x01, 0x00, 0x20, 0x00, 0x00, 0x00, 0x00, 0x00, 0x06, 0xC8, 0x19, 0x00] =
      DecodeOutcome.ok
        (ServerReceiveCommand.PingCommandType (PingCommand.mk 32 444441 false)) := by
  exact ⟨rfl, rfl⟩

end ConclaveRoomSerialize
